import Mathlib

/-!
# MKK Investment Tracker — verification of the valuation and basis engine

Shallow embedding of `tracker_app.py` (v1.9.5). Money and share quantities
are modelled as rationals (`ℚ`); the float value `nan` — used by the source
as the "unavailable" sentinel for prices and market values — is modelled as
`Option ℚ` with `none` for `nan`. Python dicts keyed by ticker are modelled
as association lists `List (String × _)` with first-match lookup; a dict in
the source has unique keys, so the assignment/removal helpers below agree
with dict semantics on every state the program reaches.
-/

set_option autoImplicit false

namespace Tracker

/-! ## Python string primitives used by the parsers -/

/-- Whitespace characters recognised by Python `str.strip` / `re`'s `\s`
on the inputs relevant here: ASCII whitespace plus the no-break space
U+00A0 (both are whitespace for Python 3 `str`). -/
def isPySpace (c : Char) : Bool :=
  c = ' ' || c = '\t' || c = '\n' || c = '\r' || c = '\x0b' || c = '\x0c' || c = '\u00A0'

/-- Python `str.strip()`: drop leading and trailing whitespace. -/
def pstrip (s : String) : String :=
  ⟨((s.data.dropWhile (fun c => isPySpace c)).reverse.dropWhile
      (fun c => isPySpace c)).reverse⟩

/-- Python `str.upper()` on the ASCII tickers this app handles:
character-wise upper-casing. -/
def pupper (s : String) : String :=
  ⟨s.data.map Char.toUpper⟩

/-- `str.replace(c, '')` for a single character: remove every occurrence. -/
def removeChar (c : Char) (s : String) : String :=
  ⟨s.data.filter (fun a => a ≠ c)⟩

/-- `str.replace(c, ' ')` for a single character. -/
def charToSpace (c : Char) (s : String) : String :=
  ⟨s.data.map (fun a => if a = c then ' ' else a)⟩

/-- `re.sub(r'\s+', '', s)`: delete every whitespace character. -/
def removeSpaces (s : String) : String :=
  ⟨s.data.filter (fun a => ¬ isPySpace a)⟩

/-- Numeric value of a digit string (most significant first). -/
def digitsVal (cs : List Char) : Nat :=
  cs.foldl (fun a c => 10 * a + (c.toNat - 48)) 0

/-- Split a character list at the first `'.'`; `none` when there is no dot. -/
def breakAtDot : List Char → Option (List Char × List Char)
  | [] => none
  | c :: cs =>
    if c = '.' then some ([], cs)
    else (breakAtDot cs).map (fun p => (c :: p.1, p.2))

/-- Python `float()` restricted to plain decimal numerals (optional sign,
digits, at most one decimal point, at least one digit): `none` models a
raised `ValueError`. The source only ever feeds `float()` cleaned-up
decimal text, so exponents and the `inf`/`nan` spellings are out of scope. -/
def parseUnsignedFloat (cs : List Char) : Option ℚ :=
  match breakAtDot cs with
  | none =>
    if cs ≠ [] ∧ cs.all Char.isDigit then some (digitsVal cs) else none
  | some (a, b) =>
    if (a ≠ [] ∨ b ≠ []) ∧ a.all Char.isDigit ∧ b.all Char.isDigit then
      some ((digitsVal a : ℚ) + (digitsVal b : ℚ) / (10 : ℚ) ^ b.length)
    else none

/-- Python `float()` on a string, with an optional leading sign. -/
def pyFloat (s : String) : Option ℚ :=
  match s.data with
  | [] => none
  | c :: rest =>
    if c = '-' then (parseUnsignedFloat rest).map (fun q => -q)
    else if c = '+' then parseUnsignedFloat rest
    else parseUnsignedFloat s.data

/-! ## Normalizer: `money_to_float` and `shares_to_float`
(`tracker_app.py` lines 213–217 and 223–228). `none` as input models the
Python argument `None`. -/

/-- `money_to_float`: strip, drop `,` and `$`, then `float(s) if s else 0.0`,
with any parse error recovered as `0.0`. -/
def money_to_float (text : Option String) : ℚ :=
  match text with
  | none => 0
  | some t =>
    let s := removeChar '$' (removeChar ',' (pstrip t))
    if s.data = [] then 0 else (pyFloat s).getD 0

/-- `shares_to_float`: strip, turn `,` and no-break spaces into spaces,
strip again, delete all whitespace, then `float(s) if s else 0.0` with
errors recovered as `0.0`. -/
def shares_to_float (text : Option String) : ℚ :=
  match text with
  | none => 0
  | some t =>
    let s := removeSpaces (pstrip (charToSpace '\u00A0' (charToSpace ',' (pstrip t))))
    if s.data = [] then 0 else (pyFloat s).getD 0

/-! ## Data model

`Holding` mirrors the record literal built at `tracker_app.py` lines
529–538 / 586–595; `Portfolio` mirrors the per-portfolio JSON object
(holdings, cash_uninvested, last_prices, and the `auto_price` flag of
`settings` — the only setting the computations read). -/

structure Holding where
  name : String
  shares : ℚ
  purchase_price : Option ℚ
  total_invested : ℚ
  dividends_collected : ℚ
  last_div_amount : ℚ
  last_div_date : String
  summary : String
deriving DecidableEq

structure Portfolio where
  holdings : List (String × Holding)
  cash_uninvested : ℚ
  last_prices : List (String × ℚ)
  auto_price : Bool
deriving DecidableEq

/-- Dict read `d.get(k)` / membership `k in d`: first entry with this key. -/
def alookup {β : Type} (k : String) : List (String × β) → Option β
  | [] => none
  | kv :: rest => if kv.1 = k then some kv.2 else alookup k rest

/-- Dict assignment `d[k] = v`: replace in place when the key exists,
append otherwise (a Python dict keeps insertion order and appends new
keys at the end). -/
def aset {β : Type} (k : String) (v : β) : List (String × β) → List (String × β)
  | [] => [(k, v)]
  | kv :: rest => if kv.1 = k then (k, v) :: rest else kv :: aset k v rest

/-- Dict removal `d.pop(k, None)`: drop every pair with this key (a dict's
keys are unique, so this is exactly the removal of the one entry). -/
def aremoveKey {β : Type} (k : String) (l : List (String × β)) : List (String × β) :=
  l.filter (fun kv => kv.1 ≠ k)

/-! ## Per-row valuation (`tab_port` row loop, lines 355–366, and
`tab_trueada` row loop, lines 686–694) -/

/-- Lines 358–359: the row price is the live fetch when `auto_price` is on
and the fetch succeeded, else the remembered `last_prices[tkr]`, else
unavailable. `fetched = none` models a `nan` from `fetch_price`. -/
def rowPrice (auto : Bool) (fetched : Option ℚ) (last_prices : List (String × ℚ))
    (tkr : String) : Option ℚ :=
  match (if auto then fetched else none) with
  | some pr => some pr
  | none => alookup tkr last_prices

/-- Line 360: `market_value = shares * price` when the price is finite,
else `nan`. -/
def marketValue (shares : ℚ) (price : Option ℚ) : Option ℚ :=
  price.map (fun pr => shares * pr)

/-- Line 363: `overall_return = (market_value - invested if finite else
0.0) + divs`. Always a number, never `nan`. -/
def overall_return (market_value : Option ℚ) (invested divs : ℚ) : ℚ :=
  (match market_value with
   | some mv => mv - invested
   | none => 0) + divs

/-- Lines 366 and 690: `true_ada = (invested - divs) / shares` when
`shares > 0`, else `nan` (modelled as `none`). -/
def true_ada (shares invested divs : ℚ) : Option ℚ :=
  if shares > 0 then some ((invested - divs) / shares) else none

/-! ## Portfolio aggregation (`tab_port`, lines 351–354, 383–385, 421) -/

/-- One iteration of the `tab_port` totals loop: accumulator is
`(total_value, total_invested, total_div)`; `fetch` supplies the
`fetch_price` result per ticker. An unavailable market value is skipped by
the `np.isfinite` guard at line 383. -/
def portStep (auto : Bool) (last_prices : List (String × ℚ))
    (fetch : String → Option ℚ) (acc : ℚ × ℚ × ℚ) (kv : String × Holding) :
    ℚ × ℚ × ℚ :=
  let mv := marketValue kv.2.shares (rowPrice auto (fetch kv.1) last_prices kv.1)
  ((match mv with
    | some v => acc.1 + v
    | none => acc.1),
   acc.2.1 + kv.2.total_invested,
   acc.2.2 + kv.2.dividends_collected)

/-- The three running totals of the `tab_port` loop, started at `0.0`. -/
def portTotals (p : Portfolio) (fetch : String → Option ℚ) : ℚ × ℚ × ℚ :=
  p.holdings.foldl (portStep p.auto_price p.last_prices fetch) (0, 0, 0)

/-- Line 421: `overall_return = total_value + cash_uninvested + total_div
- total_invested`. -/
def portOverallReturn (p : Portfolio) (fetch : String → Option ℚ) : ℚ :=
  (portTotals p fetch).1 + p.cash_uninvested + (portTotals p fetch).2.2
    - (portTotals p fetch).2.1

/-! ## Add Holding submit (`tab_add`, lines 506–553) -/

inductive AddError where
  /-- "Ticker required." (line 509) -/
  | tickerRequired
  /-- "{tkr} already exists …" (line 511) -/
  | alreadyExists
  /-- "Shares must be positive." (line 521) -/
  | sharesNotPositive
deriving DecidableEq

/-- The invested amount stored by the add path (lines 468 and 523–527):
`calculated_total` is `sh * pp` when both are positive; the explicitly
entered `inv` wins when positive; a zero result falls back to
`sh * fetch_price(tkr)` when auto-pricing is on and the fetch succeeds. -/
def addCalcInvested (auto : Bool) (sh pp inv : ℚ) (curr : Option ℚ) : ℚ :=
  let calculated_total := if sh > 0 ∧ pp > 0 then sh * pp else 0
  let ci0 := if inv > 0 then inv else calculated_total
  if ci0 = 0 ∧ auto then
    match curr with
    | some c => sh * c
    | none => ci0
  else ci0

/-- The `tab_add` submit handler. Text fields are taken as entered;
`curr` is the `fetch_price(tkr)` result consulted only when the computed
investment is zero and `auto_price` is on; `name`/`summary` stand for
`fetch_name_and_summary`. Returns the (possibly unchanged) portfolio and
the validation error, if any: on an error the state is returned as it
was, since the source only mutates `portfolio_data` in the success
branch. `calculated_total` (line 468) is recomputed from the same texts
the submit handler re-parses at lines 513–514, so it is derived inside
`addCalcInvested` rather than passed in. -/
def addSubmit (p : Portfolio) (ticker shares_text price_text total_text
    dividends_text last_amt_text ldd name summary : String)
    (curr : Option ℚ) : Portfolio × Option AddError :=
  let tkr := pupper (pstrip ticker)
  if tkr = "" then (p, some .tickerRequired)
  else if (alookup tkr p.holdings).isSome then (p, some .alreadyExists)
  else
    let sh := shares_to_float (some shares_text)
    let pp := money_to_float (some price_text)
    let inv := money_to_float (some total_text)
    let div := money_to_float (some dividends_text)
    let lda := money_to_float (some last_amt_text)
    if sh ≤ 0 then (p, some .sharesNotPositive)
    else
      let rec1 : Holding :=
        { name := name, shares := sh,
          purchase_price := if pp > 0 then some pp else none,
          total_invested := addCalcInvested p.auto_price sh pp inv curr,
          dividends_collected := div,
          last_div_amount := lda, last_div_date := ldd, summary := summary }
      ({ p with
          holdings := p.holdings ++ [(tkr, rec1)],
          last_prices := if pp > 0 then aset tkr pp p.last_prices
                         else p.last_prices },
       none)

/-! ## Edit Holding submit (`tab_edit`, lines 574–602) -/

/-- The invested amount stored by the edit path (lines 580–584): the
explicitly entered total wins when positive, else `shares * price` when
the price is positive, else the previously stored total; a zero result
falls back to `shares * fetch_price(sel)` when auto-pricing is on and the
fetch succeeds. -/
def editCalcInvested (auto : Bool) (shares purchase_price total_invested
    prev : ℚ) (curr : Option ℚ) : ℚ :=
  let ci0 := if total_invested > 0 then total_invested
             else if purchase_price > 0 then shares * purchase_price
             else prev
  if ci0 = 0 ∧ auto then
    match curr with
    | some c => shares * c
    | none => ci0
  else ci0

/-- The `tab_edit` save handler for the selected ticker `sel`. The UI
only offers tickers present in the holdings dict, so a missing `sel` is
modelled as a no-op. Note the edit path has no validation at all. -/
def editSubmit (p : Portfolio) (sel shares_text price_text total_text
    dividends_text last_amt_text ldd summary : String)
    (curr : Option ℚ) : Portfolio :=
  match alookup sel p.holdings with
  | none => p
  | some rec0 =>
    let shares := shares_to_float (some shares_text)
    let purchase_price := money_to_float (some price_text)
    let total_invested := money_to_float (some total_text)
    let dividends := money_to_float (some dividends_text)
    let last_div_amt := money_to_float (some last_amt_text)
    let rec1 : Holding :=
      { name := rec0.name, shares := shares,
        purchase_price := if purchase_price > 0 then some purchase_price else none,
        total_invested := editCalcInvested p.auto_price shares purchase_price
          total_invested rec0.total_invested curr,
        dividends_collected := dividends,
        last_div_amount := last_div_amt, last_div_date := ldd,
        summary := summary }
    { p with
        holdings := aset sel rec1 p.holdings,
        last_prices := if purchase_price > 0 then aset sel purchase_price p.last_prices
                       else p.last_prices }

/-! ## Delete Holding (`tab_edit` danger zone, lines 607–621) -/

/-- The delete form handler: the Boolean result is `true` when the
confirmation passed (line 613: stripped, upper-cased comparison plus the
checkbox) and `false` when it was rejected with the error message at
line 621. On rejection — and on a passed confirmation for an absent
ticker — the portfolio is unchanged. -/
def deleteSubmit (p : Portfolio) (sel confirm : String) (confirm_cb : Bool) :
    Portfolio × Bool :=
  if pupper (pstrip confirm) = pupper (pstrip sel) ∧ confirm_cb then
    if (alookup sel p.holdings).isSome then
      ({ p with holdings := aremoveKey sel p.holdings }, true)
    else (p, true)
  else (p, false)

/-! ## Migration merge (`tab_migrate`, lines 759–784)

Incoming records are modelled as complete `Holding` values: the
`rec.setdefault(...)` calls at lines 767–771 only fill absent JSON
fields, which the typed record has no way to omit. -/

/-- One iteration of the merge loop (lines 766–778): a new ticker is
inserted and counted as added; an existing one is overwritten and counted
as updated only under the "Overwrite" strategy, and skipped otherwise. -/
def mergeStep (overwrite : Bool)
    (acc : List (String × Holding) × Nat × Nat) (kv : String × Holding) :
    List (String × Holding) × Nat × Nat :=
  if (alookup kv.1 acc.1).isNone then (aset kv.1 kv.2 acc.1, acc.2.1 + 1, acc.2.2)
  else if overwrite then (aset kv.1 kv.2 acc.1, acc.2.1, acc.2.2 + 1)
  else acc

/-- The whole merge: fold the incoming holdings into the existing dict,
returning the merged dict and the `(added, updated)` counters. -/
def mergeHoldings (overwrite : Bool)
    (existing incoming : List (String × Holding)) :
    List (String × Holding) × Nat × Nat :=
  incoming.foldl (mergeStep overwrite) (existing, 0, 0)

/-! ## Payout-frequency classifier (`fetch_dividend_frequency`,
lines 254–274)

Dividend dates are modelled by their day numbers (`Int`): pandas
subtracts two timestamps and takes `.days`, so only the day spacing
matters. `div = none` models a missing dividend series or a raised
fetch error, both of which the `except` at line 273 turns into
`"Irregular/None"`. The `cutoff` argument is the day number of
`utcnow() - 3*365 days`. -/

/-- Insertion of one element into an ascending list. -/
def insertAsc {α : Type} [LinearOrder α] (x : α) : List α → List α
  | [] => [x]
  | y :: ys => if x ≤ y then x :: y :: ys else y :: insertAsc x ys

/-- Ascending insertion sort, modelling `sort_values()` / sorting inside
`np.median`. -/
def sortAsc {α : Type} [LinearOrder α] (l : List α) : List α :=
  l.foldr insertAsc []

/-- `np.median`: sort, take the middle element when the length is odd, the
mean of the two middle elements when it is even (0 on the empty list,
which `np.median` treats as `nan` — that case is unreachable below). -/
def npMedian (l : List ℚ) : ℚ :=
  let s := sortAsc l
  let n := s.length
  if n = 0 then 0
  else if n % 2 = 1 then s.getD (n / 2) 0
  else (s.getD (n / 2 - 1) 0 + s.getD (n / 2) 0) / 2

/-- `dates[1:] - dates[:-1]` as day counts: consecutive differences. -/
def dayGaps (dates : List Int) : List ℚ :=
  (dates.zip dates.tail).map (fun ab => ((ab.2 - ab.1 : Int) : ℚ))

/-- `fetch_dividend_frequency`, with the external fetch replaced by the
`div` argument. -/
def fetch_dividend_frequency (div : Option (List Int)) (cutoff : Int) : String :=
  match div with
  | none => "Irregular/None"
  | some l =>
    if l.length < 3 then "Irregular/None"
    else
      let dates := (sortAsc l).filter (fun d => cutoff ≤ d)
      if dates.length < 3 then "Irregular/None"
      else
        let diffs := dayGaps dates
        if diffs.length = 0 then "Irregular/None"
        else
          let med := npMedian diffs
          if med ≤ 9 then "Weekly"
          else if med ≤ 45 then "Monthly"
          else if med ≤ 115 then "Quarterly"
          else if med ≤ 220 then "Semiannual"
          else if med ≤ 400 then "Annual"
          else "Irregular/None"

/-! ## Helper lemmas -/

theorem insertAsc_length {α : Type} [LinearOrder α] (x : α) (l : List α) :
    (insertAsc x l).length = l.length + 1 := by
  induction l with
  | nil => rfl
  | cons y ys ih => by_cases h : x ≤ y <;> simp [insertAsc, h, ih]

theorem sortAsc_length {α : Type} [LinearOrder α] (l : List α) :
    (sortAsc l).length = l.length := by
  induction l with
  | nil => rfl
  | cons y ys ih =>
    show (insertAsc y (sortAsc ys)).length = ys.length + 1
    rw [insertAsc_length, ih]

theorem dayGaps_length (ds : List Int) : (dayGaps ds).length = ds.length - 1 := by
  cases ds with
  | nil => rfl
  | cons a rest => simp [dayGaps]

theorem alookup_aset_self {β : Type} (j : String) (v : β) (l : List (String × β)) :
    alookup j (aset j v l) = some v := by
  induction l with
  | nil => simp [aset, alookup]
  | cons kv rest ih =>
    by_cases h : kv.1 = j
    · simp [aset, h, alookup]
    · simp [aset, h, alookup, ih]

theorem alookup_aset_ne {β : Type} {k j : String} (hkj : k ≠ j) (v : β)
    (l : List (String × β)) : alookup k (aset j v l) = alookup k l := by
  have hjk : ¬ j = k := fun h => hkj h.symm
  induction l with
  | nil => simp [aset, alookup, hjk]
  | cons kv rest ih =>
    by_cases h : kv.1 = j
    · subst h
      simp only [aset, if_pos rfl, alookup, if_neg hjk]
    · simp only [aset, if_neg h, alookup]
      by_cases h2 : kv.1 = k
      · simp [h2]
      · simp [h2, ih]

theorem alookup_aset_isSome {β : Type} {k : String} (j : String) (v : β)
    {l : List (String × β)} (h : (alookup k l).isSome = true) :
    (alookup k (aset j v l)).isSome = true := by
  by_cases hkj : k = j
  · subst hkj
    rw [alookup_aset_self]
    rfl
  · rwa [alookup_aset_ne hkj]

theorem alookup_isSome_of_mem {β : Type} {k : String} {v : β}
    {l : List (String × β)} (h : (k, v) ∈ l) : (alookup k l).isSome = true := by
  induction l with
  | nil => cases h
  | cons kv rest ih =>
    rcases List.mem_cons.mp h with h1 | h1
    · simp [alookup, ← h1]
    · by_cases h2 : kv.1 = k <;> simp [alookup, h2, ih h1]

/-- Fold characterisation of the `tab_port` totals loop: starting from any
accumulator, the loop adds the sum of the available market values, the sum
of the invested amounts and the sum of the collected dividends. -/
theorem portFold_eq (auto : Bool) (lp : List (String × ℚ))
    (fetch : String → Option ℚ) (hs : List (String × Holding)) (a b c : ℚ) :
    hs.foldl (portStep auto lp fetch) (a, b, c) =
      (a + ((hs.filterMap
          (fun kv => marketValue kv.2.shares (rowPrice auto (fetch kv.1) lp kv.1))).sum),
       b + (hs.map (fun kv => kv.2.total_invested)).sum,
       c + (hs.map (fun kv => kv.2.dividends_collected)).sum) := by
  induction hs generalizing a b c with
  | nil => simp
  | cons kv rest ih =>
    rw [List.foldl_cons]
    cases hmv : marketValue kv.2.shares (rowPrice auto (fetch kv.1) lp kv.1) with
    | none =>
      simp only [portStep, hmv]
      rw [ih]
      simp [List.filterMap_cons, hmv, add_assoc]
    | some v =>
      simp only [portStep, hmv]
      rw [ih]
      simp [List.filterMap_cons, hmv, add_assoc]

/-- Under `add_only`, folding incoming records whose tickers are all
already present changes nothing. -/
theorem mergeFold_allPresent (inc : List (String × Holding))
    (hs : List (String × Holding)) (a u : Nat)
    (hall : ∀ kv ∈ inc, (alookup kv.1 hs).isSome = true) :
    inc.foldl (mergeStep false) (hs, a, u) = (hs, a, u) := by
  induction inc with
  | nil => rfl
  | cons kv rest ih =>
    have hkv : (alookup kv.1 hs).isSome = true := hall kv (List.mem_cons_self kv rest)
    rw [List.foldl_cons]
    have hstep : mergeStep false (hs, a, u) kv = (hs, a, u) := by
      simp only [mergeStep]
      rw [if_neg (by simp [Option.isNone_iff_eq_none]; exact Option.ne_none_iff_isSome.mpr hkv)]
      simp
    rw [hstep]
    exact ih (fun kv2 h2 => hall kv2 (List.mem_cons_of_mem kv h2))

/-- Under `add_only`, an existing entry keeps its exact value through a
merge fold. -/
theorem mergeFold_keeps_addOnly (inc : List (String × Holding)) (k : String)
    (hs : List (String × Holding)) (a u : Nat)
    (hk : (alookup k hs).isSome = true) :
    alookup k (inc.foldl (mergeStep false) (hs, a, u)).1 = alookup k hs := by
  induction inc generalizing hs a u with
  | nil => rfl
  | cons kv rest ih =>
    rw [List.foldl_cons]
    by_cases habs : (alookup kv.1 hs).isNone = true
    · have hne : k ≠ kv.1 := by
        intro he
        rw [he] at hk
        rw [Option.isNone_iff_eq_none] at habs
        rw [habs] at hk
        cases hk
      have hstep : mergeStep false (hs, a, u) kv = (aset kv.1 kv.2 hs, a + 1, u) := by
        simp only [mergeStep, if_pos habs]
      rw [hstep, ih _ _ _ (alookup_aset_isSome kv.1 kv.2 hk), alookup_aset_ne hne]
    · have hstep : mergeStep false (hs, a, u) kv = (hs, a, u) := by
        simp only [mergeStep, if_neg habs]
        simp
      rw [hstep]
      exact ih _ _ _ hk

/-- In either mode, a key present before a merge fold is still present
after it. -/
theorem mergeFold_no_delete (ow : Bool) (inc : List (String × Holding))
    (k : String) (hs : List (String × Holding)) (a u : Nat)
    (hk : (alookup k hs).isSome = true) :
    (alookup k (inc.foldl (mergeStep ow) (hs, a, u)).1).isSome = true := by
  induction inc generalizing hs a u with
  | nil => exact hk
  | cons kv rest ih =>
    rw [List.foldl_cons]
    have hkeep : (alookup k (mergeStep ow (hs, a, u) kv).1).isSome = true := by
      simp only [mergeStep]
      split_ifs
      · exact alookup_aset_isSome _ _ hk
      · exact alookup_aset_isSome _ _ hk
      · exact hk
    exact ih (mergeStep ow (hs, a, u) kv).1 (mergeStep ow (hs, a, u) kv).2.1
      (mergeStep ow (hs, a, u) kv).2.2 hkeep

theorem alookup_aremoveKey_self {β : Type} (k : String) (l : List (String × β)) :
    alookup k (aremoveKey k l) = none := by
  induction l with
  | nil => rfl
  | cons kv rest ih =>
    by_cases h : kv.1 = k
    · rw [aremoveKey, List.filter_cons_of_neg (by simp [h])]
      exact ih
    · rw [aremoveKey, List.filter_cons_of_pos (by simp [h])]
      rw [alookup, if_neg h]
      exact ih

theorem alookup_append_self {β : Type} (k : String) (v : β)
    (l : List (String × β)) (h : alookup k l = none) :
    alookup k (l ++ [(k, v)]) = some v := by
  induction l with
  | nil => simp [alookup]
  | cons kv rest ih =>
    by_cases h2 : kv.1 = k
    · rw [alookup, if_pos h2] at h
      cases h
    · rw [alookup, if_neg h2] at h
      rw [List.cons_append, alookup, if_neg h2]
      exact ih h

/-- A fetch failure always sends the row price to the `last_prices`
fallback, whatever the `auto_price` setting. -/
theorem rowPrice_fetch_failed (auto : Bool) (lp : List (String × ℚ)) (t : String) :
    rowPrice auto none lp t = alookup t lp := by
  cases auto <;> rfl

/-- An explicitly entered positive total wins in the add path. -/
theorem addCalcInvested_pos_inv (auto : Bool) (sh pp inv : ℚ) (curr : Option ℚ)
    (h : 0 < inv) : addCalcInvested auto sh pp inv curr = inv := by
  simp only [addCalcInvested, if_pos h]
  rw [if_neg]
  exact fun hc => absurd hc.1 (ne_of_gt h)

/-- With no positive explicit total, the add path stores the
`shares × price` product when both are positive. -/
theorem addCalcInvested_product (auto : Bool) (sh pp inv : ℚ) (curr : Option ℚ)
    (hinv : ¬ 0 < inv) (hsh : 0 < sh) (hpp : 0 < pp) :
    addCalcInvested auto sh pp inv curr = sh * pp := by
  simp only [addCalcInvested, if_neg hinv, if_pos (show sh > 0 ∧ pp > 0 from ⟨hsh, hpp⟩)]
  rw [if_neg]
  exact fun hc => absurd hc.1 (ne_of_gt (mul_pos hsh hpp))

/-- An explicitly entered positive total wins in the edit path. -/
theorem editCalcInvested_pos_inv (auto : Bool) (shares purchase_price
    total_invested prev : ℚ) (curr : Option ℚ) (h : 0 < total_invested) :
    editCalcInvested auto shares purchase_price total_invested prev curr
      = total_invested := by
  simp only [editCalcInvested, if_pos h]
  rw [if_neg]
  exact fun hc => absurd hc.1 (ne_of_gt h)

/-- The add submit on valid input: the exact state produced by the
success branch. -/
theorem addSubmit_success_eq (p : Portfolio) (ticker sh_t pr_t tot_t div_t
    lda_t ldd nm sm : String) (curr : Option ℚ)
    (ht : ¬ pupper (pstrip ticker) = "")
    (hdup : ¬ (alookup (pupper (pstrip ticker)) p.holdings).isSome = true)
    (hsh : ¬ shares_to_float (some sh_t) ≤ 0) :
    addSubmit p ticker sh_t pr_t tot_t div_t lda_t ldd nm sm curr =
      ({ p with
          holdings := p.holdings ++ [(pupper (pstrip ticker),
            { name := nm, shares := shares_to_float (some sh_t),
              purchase_price := if money_to_float (some pr_t) > 0
                                then some (money_to_float (some pr_t)) else none,
              total_invested := addCalcInvested p.auto_price
                (shares_to_float (some sh_t)) (money_to_float (some pr_t))
                (money_to_float (some tot_t)) curr,
              dividends_collected := money_to_float (some div_t),
              last_div_amount := money_to_float (some lda_t),
              last_div_date := ldd, summary := sm })],
          last_prices := if money_to_float (some pr_t) > 0
                         then aset (pupper (pstrip ticker))
                           (money_to_float (some pr_t)) p.last_prices
                         else p.last_prices }, none) := by
  simp only [addSubmit, if_neg ht, if_neg hdup, if_neg hsh]

/-- A failed validation leaves the add submit's result at the error pair:
the three error cases, exhaustively. -/
theorem addSubmit_error_cases (p : Portfolio) (ticker sh_t pr_t tot_t div_t
    lda_t ldd nm sm : String) (curr : Option ℚ) :
    (pupper (pstrip ticker) = "" →
      addSubmit p ticker sh_t pr_t tot_t div_t lda_t ldd nm sm curr
        = (p, some AddError.tickerRequired))
    ∧ (¬ pupper (pstrip ticker) = "" →
       (alookup (pupper (pstrip ticker)) p.holdings).isSome = true →
      addSubmit p ticker sh_t pr_t tot_t div_t lda_t ldd nm sm curr
        = (p, some AddError.alreadyExists))
    ∧ (¬ pupper (pstrip ticker) = "" →
       ¬ (alookup (pupper (pstrip ticker)) p.holdings).isSome = true →
       shares_to_float (some sh_t) ≤ 0 →
      addSubmit p ticker sh_t pr_t tot_t div_t lda_t ldd nm sm curr
        = (p, some AddError.sharesNotPositive)) := by
  refine ⟨?_, ?_, ?_⟩
  · intro h
    simp only [addSubmit, if_pos h]
  · intro h1 h2
    simp only [addSubmit, if_neg h1, if_pos h2]
  · intro h1 h2 h3
    simp only [addSubmit, if_neg h1, if_neg h2, if_pos h3]

/-- The edit submit on a present ticker: the exact state produced. -/
theorem editSubmit_eq (p : Portfolio) (sel sh_t pr_t tot_t div_t lda_t
    ldd sm : String) (curr : Option ℚ) (rec0 : Holding)
    (h : alookup sel p.holdings = some rec0) :
    editSubmit p sel sh_t pr_t tot_t div_t lda_t ldd sm curr =
      { p with
          holdings := aset sel
            { name := rec0.name, shares := shares_to_float (some sh_t),
              purchase_price := if money_to_float (some pr_t) > 0
                                then some (money_to_float (some pr_t)) else none,
              total_invested := editCalcInvested p.auto_price
                (shares_to_float (some sh_t)) (money_to_float (some pr_t))
                (money_to_float (some tot_t)) rec0.total_invested curr,
              dividends_collected := money_to_float (some div_t),
              last_div_amount := money_to_float (some lda_t),
              last_div_date := ldd, summary := sm } p.holdings,
          last_prices := if money_to_float (some pr_t) > 0
                         then aset sel (money_to_float (some pr_t)) p.last_prices
                         else p.last_prices } := by
  simp only [editSubmit, h]

/-- A successful add implies all three validations passed. -/
theorem addSubmit_ok_conditions (p : Portfolio) (ticker sh_t pr_t tot_t div_t
    lda_t ldd nm sm : String) (curr : Option ℚ)
    (hok : (addSubmit p ticker sh_t pr_t tot_t div_t lda_t ldd nm sm curr).2 = none) :
    ¬ pupper (pstrip ticker) = ""
      ∧ ¬ (alookup (pupper (pstrip ticker)) p.holdings).isSome = true
      ∧ ¬ shares_to_float (some sh_t) ≤ 0 := by
  by_cases h1 : pupper (pstrip ticker) = ""
  · rw [(addSubmit_error_cases p ticker sh_t pr_t tot_t div_t lda_t ldd nm sm curr).1 h1] at hok
    simp at hok
  · by_cases h2 : (alookup (pupper (pstrip ticker)) p.holdings).isSome = true
    · rw [(addSubmit_error_cases p ticker sh_t pr_t tot_t div_t lda_t ldd nm sm curr).2.1
        h1 h2] at hok
      simp at hok
    · by_cases h3 : shares_to_float (some sh_t) ≤ 0
      · rw [(addSubmit_error_cases p ticker sh_t pr_t tot_t div_t lda_t ldd nm sm curr).2.2
          h1 h2 h3] at hok
        simp at hok
      · exact ⟨h1, h2, h3⟩

/-! ## Concrete states used by witnesses and counterexamples -/

/-- A portfolio with no holdings, auto-pricing off. -/
def emptyP : Portfolio :=
  { holdings := [], cash_uninvested := 0, last_prices := [], auto_price := false }

/-- A sample holding for the delete/merge scenarios. -/
def hAAPL : Holding :=
  { name := "Apple", shares := 1, purchase_price := none, total_invested := 100,
    dividends_collected := 0, last_div_amount := 0, last_div_date := "",
    summary := "" }

/-- A portfolio holding exactly `AAPL`. -/
def pAAPL : Portfolio :=
  { holdings := [("AAPL", hAAPL)], cash_uninvested := 0, last_prices := [],
    auto_price := false }

/-! ## Claims -/

/-- C1: for every holding with shares `s > 0`, `total_invested i ≥ 0` and
`dividends_collected d ≥ 0`, the per-holding True ADA is available and
equals `(i − d) / s`; it may be negative without being an error (e.g.
`s = 1, i = 0, d = 1` gives `-1`, still an available value); when `s = 0`
it is unavailable regardless of `i` and `d`. -/
theorem C1_true_ada (s i d : ℚ) (hs : 0 < s) (hi : 0 ≤ i) (hd : 0 ≤ d) :
    true_ada s i d = some ((i - d) / s)
      ∧ (∀ i2 d2 : ℚ, true_ada 0 i2 d2 = none)
      ∧ true_ada 1 0 1 = some (-1) := by
  refine ⟨?_, ?_, ?_⟩
  · simp [true_ada, hs]
  · intro i2 d2
    simp [true_ada]
  · norm_num [true_ada]

/-- C1 witness at `s = 2, i = 10, d = 3`. -/
theorem C1_true_ada_witness :
    true_ada 2 10 3 = some ((10 - 3) / 2)
      ∧ (∀ i2 d2 : ℚ, true_ada 0 i2 d2 = none)
      ∧ true_ada 1 0 1 = some (-1) :=
  C1_true_ada 2 10 3 (by norm_num) (by norm_num) (by norm_num)

/-- C2: the per-holding overall dollar return is
`(market_value − total_invested) + dividends_collected` when the price
(hence the market value) is available, and `0 + dividends_collected` when
it is unavailable; in both cases it is a number, never unavailable. -/
theorem C2_overall_return (sh pr invested divs : ℚ) :
    overall_return (marketValue sh (some pr)) invested divs
        = (sh * pr - invested) + divs
      ∧ overall_return (marketValue sh none) invested divs = 0 + divs := by
  exact ⟨rfl, rfl⟩

/-- C7: `money_to_float` / `shares_to_float` on the spec's concrete
inputs: currency symbol, thousands separator and whitespace (including
the no-break space) are stripped, empty and unparsable input give `0.0`,
and the `None` argument gives `0.0` — there is no error outcome. -/
theorem C7_parsers :
    money_to_float (some "$1,234.50") = 1234.50
      ∧ money_to_float (some "") = 0
      ∧ money_to_float (some "garbage") = 0
      ∧ money_to_float (some " $1,234.50 ") = 1234.50
      ∧ money_to_float (some "\u00A0$5\u00A0") = 5
      ∧ money_to_float none = 0
      ∧ shares_to_float (some "1,234.5") = 1234.5
      ∧ shares_to_float (some "1\u00A0234") = 1234
      ∧ shares_to_float (some "garbage") = 0
      ∧ shares_to_float (some "") = 0
      ∧ shares_to_float none = 0 := by
  refine ⟨?_, ?_, ?_, ?_, ?_, ?_, ?_, ?_, ?_, ?_, ?_⟩ <;> with_unfolding_all rfl

/-- C4: the payout classifier is total — a missing/failed dividend history
gives "Irregular/None", as do fewer than 3 events inside the trailing
window; with at least 3 qualifying events it sorts the dates ascending,
takes the median `m` of the consecutive day-gaps, and maps it through the
inclusive thresholds 9 → Weekly, 45 → Monthly, 115 → Quarterly,
220 → Semiannual, 400 → Annual, else "Irregular/None". -/
theorem C4_payout_classifier (cutoff : Int) :
    fetch_dividend_frequency none cutoff = "Irregular/None"
      ∧ (∀ l : List Int,
          ((sortAsc l).filter (fun d => cutoff ≤ d)).length < 3 →
          fetch_dividend_frequency (some l) cutoff = "Irregular/None")
      ∧ (∀ l : List Int,
          3 ≤ ((sortAsc l).filter (fun d => cutoff ≤ d)).length →
          (npMedian (dayGaps ((sortAsc l).filter (fun d => cutoff ≤ d))) ≤ 9 →
              fetch_dividend_frequency (some l) cutoff = "Weekly")
          ∧ (9 < npMedian (dayGaps ((sortAsc l).filter (fun d => cutoff ≤ d))) →
             npMedian (dayGaps ((sortAsc l).filter (fun d => cutoff ≤ d))) ≤ 45 →
              fetch_dividend_frequency (some l) cutoff = "Monthly")
          ∧ (45 < npMedian (dayGaps ((sortAsc l).filter (fun d => cutoff ≤ d))) →
             npMedian (dayGaps ((sortAsc l).filter (fun d => cutoff ≤ d))) ≤ 115 →
              fetch_dividend_frequency (some l) cutoff = "Quarterly")
          ∧ (115 < npMedian (dayGaps ((sortAsc l).filter (fun d => cutoff ≤ d))) →
             npMedian (dayGaps ((sortAsc l).filter (fun d => cutoff ≤ d))) ≤ 220 →
              fetch_dividend_frequency (some l) cutoff = "Semiannual")
          ∧ (220 < npMedian (dayGaps ((sortAsc l).filter (fun d => cutoff ≤ d))) →
             npMedian (dayGaps ((sortAsc l).filter (fun d => cutoff ≤ d))) ≤ 400 →
              fetch_dividend_frequency (some l) cutoff = "Annual")
          ∧ (400 < npMedian (dayGaps ((sortAsc l).filter (fun d => cutoff ≤ d))) →
              fetch_dividend_frequency (some l) cutoff = "Irregular/None")) := by
  refine ⟨rfl, ?_, ?_⟩
  · intro l hlt
    by_cases h3 : l.length < 3
    · simp only [fetch_dividend_frequency, if_pos h3]
    · simp only [fetch_dividend_frequency, if_neg h3, if_pos hlt]
  · intro l hge
    have hs : (sortAsc l).length = l.length := sortAsc_length l
    have hf : ((sortAsc l).filter (fun d => cutoff ≤ d)).length ≤ (sortAsc l).length :=
      List.length_filter_le _ _
    have hlen : ¬ l.length < 3 := by omega
    have hne : ¬ (dayGaps ((sortAsc l).filter (fun d => cutoff ≤ d))).length = 0 := by
      rw [dayGaps_length]; omega
    have key : fetch_dividend_frequency (some l) cutoff =
        (if npMedian (dayGaps ((sortAsc l).filter (fun d => cutoff ≤ d))) ≤ 9 then "Weekly"
         else if npMedian (dayGaps ((sortAsc l).filter (fun d => cutoff ≤ d))) ≤ 45 then "Monthly"
         else if npMedian (dayGaps ((sortAsc l).filter (fun d => cutoff ≤ d))) ≤ 115 then "Quarterly"
         else if npMedian (dayGaps ((sortAsc l).filter (fun d => cutoff ≤ d))) ≤ 220 then "Semiannual"
         else if npMedian (dayGaps ((sortAsc l).filter (fun d => cutoff ≤ d))) ≤ 400 then "Annual"
         else "Irregular/None") := by
      simp only [fetch_dividend_frequency, if_neg hlen, if_neg (Nat.not_lt.mpr hge),
        if_neg hne]
    refine ⟨?_, ?_, ?_, ?_, ?_, ?_⟩
    · intro h9
      rw [key, if_pos h9]
    · intro h9 h45
      rw [key, if_neg (not_le.mpr h9), if_pos h45]
    · intro h45 h115
      rw [key, if_neg (by linarith), if_neg (not_le.mpr h45), if_pos h115]
    · intro h115 h220
      rw [key, if_neg (by linarith), if_neg (by linarith), if_neg (not_le.mpr h115),
        if_pos h220]
    · intro h220 h400
      rw [key, if_neg (by linarith), if_neg (by linarith), if_neg (by linarith),
        if_neg (not_le.mpr h220), if_pos h400]
    · intro h400
      rw [key, if_neg (by linarith), if_neg (by linarith), if_neg (by linarith),
        if_neg (by linarith), if_neg (not_le.mpr h400)]

/-- C4 witness: four events 30/31 days apart qualify (cutoff well in the
past), the gap median is 30, and the classifier answers "Monthly". -/
theorem C4_payout_classifier_witness :
    fetch_dividend_frequency (some [0, 30, 61, 91]) (-1) = "Monthly" := by
  have hmed : npMedian (dayGaps ((sortAsc [(0 : Int), 30, 61, 91]).filter
      (fun d => (-1 : Int) ≤ d))) = 30 := by
    with_unfolding_all rfl
  exact ((C4_payout_classifier (-1)).2.2 [0, 30, 61, 91] (by decide)).2.1
    (by rw [hmed]; norm_num) (by rw [hmed]; norm_num)

/-- C5: portfolio aggregation is partial-total — `total_value` is the sum
of market value over exactly the holdings whose market value is available
(an unavailable price contributes nothing and the total stays a number),
`total_invested` and `total_div` are plain sums, and the portfolio overall
dollar return is `total_value + cash_uninvested + total_dividends −
total_invested`. -/
theorem C5_portfolio_aggregation (p : Portfolio) (fetch : String → Option ℚ) :
    (portTotals p fetch).1 =
        (p.holdings.filterMap (fun kv =>
          marketValue kv.2.shares
            (rowPrice p.auto_price (fetch kv.1) p.last_prices kv.1))).sum
      ∧ (portTotals p fetch).2.1 =
        (p.holdings.map (fun kv => kv.2.total_invested)).sum
      ∧ (portTotals p fetch).2.2 =
        (p.holdings.map (fun kv => kv.2.dividends_collected)).sum
      ∧ portOverallReturn p fetch =
        (p.holdings.filterMap (fun kv =>
            marketValue kv.2.shares
              (rowPrice p.auto_price (fetch kv.1) p.last_prices kv.1))).sum
          + p.cash_uninvested
          + (p.holdings.map (fun kv => kv.2.dividends_collected)).sum
          - (p.holdings.map (fun kv => kv.2.total_invested)).sum := by
  have h := portFold_eq p.auto_price p.last_prices fetch p.holdings 0 0 0
  have h1 : (portTotals p fetch).1 =
      (p.holdings.filterMap (fun kv =>
        marketValue kv.2.shares
          (rowPrice p.auto_price (fetch kv.1) p.last_prices kv.1))).sum := by
    rw [portTotals, h]
    simp
  have h2 : (portTotals p fetch).2.1 =
      (p.holdings.map (fun kv => kv.2.total_invested)).sum := by
    rw [portTotals, h]
    simp
  have h3 : (portTotals p fetch).2.2 =
      (p.holdings.map (fun kv => kv.2.dividends_collected)).sum := by
    rw [portTotals, h]
    simp
  refine ⟨h1, h2, h3, ?_⟩
  rw [portOverallReturn, h1, h2, h3]

/-- C6: merging a portfolio's own holdings into itself under `add_only`
changes nothing and reports `added = 0`, `updated = 0`; more generally an
incoming ticker already present is skipped under `add_only` (its stored
record is untouched), and no merge, in either mode, removes a holding that
is absent from the incoming set. -/
theorem C6_merge (hs : List (String × Holding)) :
    mergeHoldings false hs hs = (hs, 0, 0)
      ∧ (∀ incoming : List (String × Holding), ∀ k : String,
          (alookup k hs).isSome = true →
          alookup k (mergeHoldings false hs incoming).1 = alookup k hs)
      ∧ (∀ (overwrite : Bool) (incoming : List (String × Holding)) (k : String),
          (alookup k hs).isSome = true →
          (alookup k (mergeHoldings overwrite hs incoming).1).isSome = true) := by
  refine ⟨?_, ?_, ?_⟩
  · exact mergeFold_allPresent hs hs 0 0
      (fun kv hm => alookup_isSome_of_mem (by rwa [← (show (kv.1, kv.2) = kv from rfl)] at hm))
  · intro incoming k hk
    exact mergeFold_keeps_addOnly incoming k hs 0 0 hk
  · intro ow incoming k hk
    exact mergeFold_no_delete ow incoming k hs 0 0 hk

/-- C6 witness: the one-holding portfolio merged into itself under
`add_only`; the skip and no-delete parts instantiated at `AAPL`. -/
theorem C6_merge_witness :
    mergeHoldings false pAAPL.holdings pAAPL.holdings = (pAAPL.holdings, 0, 0)
      ∧ alookup "AAPL" (mergeHoldings false pAAPL.holdings []).1
          = alookup "AAPL" pAAPL.holdings
      ∧ (alookup "AAPL" (mergeHoldings true pAAPL.holdings []).1).isSome = true :=
  ⟨(C6_merge pAAPL.holdings).1,
   (C6_merge pAAPL.holdings).2.1 [] "AAPL" (by decide),
   (C6_merge pAAPL.holdings).2.2 true [] "AAPL" (by decide)⟩

/-- C3 counterexample: adding with shares "2", purchase price "$10.00"
and an explicitly entered total of "$500.00" stores `500`, the explicit
total — not the product `2 × 10 = 20` the claim says takes precedence. -/
theorem C3_counterexample :
    (alookup "ABC"
        (addSubmit emptyP "ABC" "2" "$10.00" "$500.00" "" "" "" "n" "s" none).1.holdings).map
        Holding.total_invested = some 500
      ∧ shares_to_float (some "2") * money_to_float (some "$10.00") = 20
      ∧ ¬ ((500 : ℚ) = 20) := by
  refine ⟨by with_unfolding_all rfl, by with_unfolding_all rfl, by norm_num⟩

/-- C3 (amended): at save time, when an explicit positive total_invested
is supplied it takes precedence and is stored verbatim — in the add path
and in the edit path alike; `shares × purchase_price` is stored by the
add path only when no positive explicit total is given. -/
theorem C3_explicit_total_precedence (p : Portfolio) (ticker sh_t pr_t tot_t
    div_t lda_t ldd nm sm : String) (curr : Option ℚ) :
    ((addSubmit p ticker sh_t pr_t tot_t div_t lda_t ldd nm sm curr).2 = none →
     0 < money_to_float (some tot_t) →
     (alookup (pupper (pstrip ticker))
         (addSubmit p ticker sh_t pr_t tot_t div_t lda_t ldd nm sm curr).1.holdings).map
       Holding.total_invested = some (money_to_float (some tot_t)))
    ∧ ((addSubmit p ticker sh_t pr_t tot_t div_t lda_t ldd nm sm curr).2 = none →
       ¬ 0 < money_to_float (some tot_t) →
       0 < money_to_float (some pr_t) →
       (alookup (pupper (pstrip ticker))
           (addSubmit p ticker sh_t pr_t tot_t div_t lda_t ldd nm sm curr).1.holdings).map
         Holding.total_invested
         = some (shares_to_float (some sh_t) * money_to_float (some pr_t)))
    ∧ (∀ rec0 : Holding, alookup ticker p.holdings = some rec0 →
       0 < money_to_float (some tot_t) →
       (alookup ticker
           (editSubmit p ticker sh_t pr_t tot_t div_t lda_t ldd sm curr).holdings).map
         Holding.total_invested = some (money_to_float (some tot_t))) := by
  refine ⟨?_, ?_, ?_⟩
  · intro hok hinv
    obtain ⟨h1, h2, h3⟩ :=
      addSubmit_ok_conditions p ticker sh_t pr_t tot_t div_t lda_t ldd nm sm curr hok
    rw [addSubmit_success_eq p ticker sh_t pr_t tot_t div_t lda_t ldd nm sm curr h1 h2 h3]
    show (alookup (pupper (pstrip ticker)) (p.holdings ++ _)).map Holding.total_invested = _
    rw [alookup_append_self _ _ _ (Option.not_isSome_iff_eq_none.mp h2), Option.map_some']
    exact congrArg some (addCalcInvested_pos_inv _ _ _ _ _ hinv)
  · intro hok hinv hpp
    obtain ⟨h1, h2, h3⟩ :=
      addSubmit_ok_conditions p ticker sh_t pr_t tot_t div_t lda_t ldd nm sm curr hok
    rw [addSubmit_success_eq p ticker sh_t pr_t tot_t div_t lda_t ldd nm sm curr h1 h2 h3]
    show (alookup (pupper (pstrip ticker)) (p.holdings ++ _)).map Holding.total_invested = _
    rw [alookup_append_self _ _ _ (Option.not_isSome_iff_eq_none.mp h2), Option.map_some']
    exact congrArg some (addCalcInvested_product _ _ _ _ _ hinv (not_le.mp h3) hpp)
  · intro rec0 h hinv
    rw [editSubmit_eq p ticker sh_t pr_t tot_t div_t lda_t ldd sm curr rec0 h]
    show (alookup ticker (aset ticker _ p.holdings)).map Holding.total_invested = _
    rw [alookup_aset_self, Option.map_some']
    exact congrArg some (editCalcInvested_pos_inv _ _ _ _ _ _ hinv)

/-- C3 witness: the three precedence cases at concrete inputs — explicit
total wins on add, product is used on add without an explicit total,
explicit total wins on edit. -/
theorem C3_explicit_total_precedence_witness :
    (alookup (pupper (pstrip "ABC"))
        (addSubmit emptyP "ABC" "2" "$10.00" "$500.00" "" "" "" "n" "s" none).1.holdings).map
        Holding.total_invested = some (money_to_float (some "$500.00"))
      ∧ (alookup (pupper (pstrip "ABC"))
          (addSubmit emptyP "ABC" "2" "$10.00" "" "" "" "" "n" "s" none).1.holdings).map
          Holding.total_invested
          = some (shares_to_float (some "2") * money_to_float (some "$10.00"))
      ∧ (alookup "AAPL"
          (editSubmit pAAPL "AAPL" "2" "$10.00" "$500.00" "" "" "" "s" none).holdings).map
          Holding.total_invested = some (money_to_float (some "$500.00")) :=
  ⟨(C3_explicit_total_precedence emptyP "ABC" "2" "$10.00" "$500.00" "" "" "" "n" "s" none).1
      (by with_unfolding_all rfl)
      (by rw [show money_to_float (some "$500.00") = 500 from by with_unfolding_all rfl]
          norm_num),
   (C3_explicit_total_precedence emptyP "ABC" "2" "$10.00" "" "" "" "" "n" "s" none).2.1
      (by with_unfolding_all rfl)
      (by rw [show money_to_float (some "") = 0 from by with_unfolding_all rfl]
          norm_num)
      (by rw [show money_to_float (some "$10.00") = 10 from by with_unfolding_all rfl]
          norm_num),
   (C3_explicit_total_precedence pAAPL "AAPL" "2" "$10.00" "$500.00" "" "" "" "n" "s" none).2.2
      hAAPL (by with_unfolding_all rfl)
      (by rw [show money_to_float (some "$500.00") = 500 from by with_unfolding_all rfl]
          norm_num)⟩

/-- C8: an add whose shares text parses to `0` — with any explicit total,
e.g. 500 — is rejected with the "Shares must be positive" validation
error and leaves the portfolio exactly as it was. -/
theorem C8_zero_shares_rejected (p : Portfolio) (ticker sh_t pr_t tot_t
    div_t lda_t ldd nm sm : String) (curr : Option ℚ)
    (ht : ¬ pupper (pstrip ticker) = "")
    (hdup : ¬ (alookup (pupper (pstrip ticker)) p.holdings).isSome = true)
    (hsh : shares_to_float (some sh_t) = 0) :
    addSubmit p ticker sh_t pr_t tot_t div_t lda_t ldd nm sm curr
      = (p, some AddError.sharesNotPositive) :=
  (addSubmit_error_cases p ticker sh_t pr_t tot_t div_t lda_t ldd nm sm curr).2.2
    ht hdup (le_of_eq hsh)

/-- C8 witness: shares "0" with total "$500.00" on the empty portfolio. -/
theorem C8_zero_shares_rejected_witness :
    addSubmit emptyP "ABC" "0" "" "$500.00" "" "" "" "n" "s" none
      = (emptyP, some AddError.sharesNotPositive) :=
  C8_zero_shares_rejected emptyP "ABC" "0" "" "$500.00" "" "" "" "n" "s" none
    (by rw [show pupper (pstrip "ABC") = "ABC" from by with_unfolding_all rfl]
        decide)
    (by decide)
    (by with_unfolding_all rfl)

/-- C9 counterexample: with holding `AAPL`, confirmation text `"aapl"` is
not exactly the ticker, yet the deletion goes through and removes the
holding — refuting "if the ticker text mismatches … the deletion is
rejected and the portfolio state is unchanged" under exact matching. -/
theorem C9_counterexample :
    ¬ ("aapl" = "AAPL")
      ∧ (deleteSubmit pAAPL "AAPL" "aapl" true).1.holdings = []
      ∧ (deleteSubmit pAAPL "AAPL" "aapl" true).2 = true := by
  refine ⟨by decide, by with_unfolding_all rfl, by with_unfolding_all rfl⟩

/-- C9 (amended): deletion requires the confirmation text to match the
ticker up to leading/trailing whitespace and letter case, plus the
acknowledgement flag; if the normalized text mismatches or the flag is
unchecked the deletion is rejected with an error and the portfolio is
unchanged, and when both factors pass the holding is removed. -/
theorem C9_delete_two_factor (p : Portfolio) (sel confirm : String) (cb : Bool) :
    (¬ (pupper (pstrip confirm) = pupper (pstrip sel) ∧ cb = true) →
       deleteSubmit p sel confirm cb = (p, false))
    ∧ (pupper (pstrip confirm) = pupper (pstrip sel) → cb = true →
       alookup sel (deleteSubmit p sel confirm cb).1.holdings = none) := by
  constructor
  · intro h
    simp only [deleteSubmit, if_neg h]
  · intro h1 h2
    simp only [deleteSubmit, if_pos (show _ ∧ _ from ⟨h1, h2⟩)]
    by_cases hp : (alookup sel p.holdings).isSome = true
    · rw [if_pos hp]
      exact alookup_aremoveKey_self sel p.holdings
    · rw [if_neg hp]
      exact Option.not_isSome_iff_eq_none.mp hp

/-- C9 witness: correct text with flag unchecked is rejected unchanged;
matching text (after normalization) with the flag checked removes the
holding. -/
theorem C9_delete_two_factor_witness :
    deleteSubmit pAAPL "AAPL" "AAPL" false = (pAAPL, false)
      ∧ alookup "AAPL" (deleteSubmit pAAPL "AAPL" " aapl " true).1.holdings = none :=
  ⟨(C9_delete_two_factor pAAPL "AAPL" "AAPL" false).1 (by simp),
   (C9_delete_two_factor pAAPL "AAPL" " aapl " true).2 (by with_unfolding_all rfl) rfl⟩

/-- C10: a successful add or edit that supplies a positive purchase price
writes that price into `last_prices` under the holding's ticker, and a
later valuation whose live price fetch fails resolves that ticker's price
to exactly the purchase price. -/
theorem C10_last_price_seeding (p : Portfolio) (ticker sh_t pr_t tot_t div_t
    lda_t ldd nm sm : String) (curr : Option ℚ) :
    ((addSubmit p ticker sh_t pr_t tot_t div_t lda_t ldd nm sm curr).2 = none →
     0 < money_to_float (some pr_t) →
     alookup (pupper (pstrip ticker))
         (addSubmit p ticker sh_t pr_t tot_t div_t lda_t ldd nm sm curr).1.last_prices
       = some (money_to_float (some pr_t))
     ∧ rowPrice (addSubmit p ticker sh_t pr_t tot_t div_t lda_t ldd nm sm curr).1.auto_price
         none (addSubmit p ticker sh_t pr_t tot_t div_t lda_t ldd nm sm curr).1.last_prices
         (pupper (pstrip ticker))
       = some (money_to_float (some pr_t)))
    ∧ (∀ rec0 : Holding, alookup ticker p.holdings = some rec0 →
       0 < money_to_float (some pr_t) →
       alookup ticker
           (editSubmit p ticker sh_t pr_t tot_t div_t lda_t ldd sm curr).last_prices
         = some (money_to_float (some pr_t))
       ∧ rowPrice (editSubmit p ticker sh_t pr_t tot_t div_t lda_t ldd sm curr).auto_price
           none (editSubmit p ticker sh_t pr_t tot_t div_t lda_t ldd sm curr).last_prices
           ticker
         = some (money_to_float (some pr_t))) := by
  constructor
  · intro hok hpp
    obtain ⟨h1, h2, h3⟩ :=
      addSubmit_ok_conditions p ticker sh_t pr_t tot_t div_t lda_t ldd nm sm curr hok
    rw [addSubmit_success_eq p ticker sh_t pr_t tot_t div_t lda_t ldd nm sm curr h1 h2 h3]
    show alookup _ (if _ then _ else _) = _ ∧ rowPrice _ none (if _ then _ else _) _ = _
    rw [if_pos hpp, rowPrice_fetch_failed, alookup_aset_self]
    exact ⟨rfl, rfl⟩
  · intro rec0 h hpp
    rw [editSubmit_eq p ticker sh_t pr_t tot_t div_t lda_t ldd sm curr rec0 h]
    show alookup _ (if _ then _ else _) = _ ∧ rowPrice _ none (if _ then _ else _) _ = _
    rw [if_pos hpp, rowPrice_fetch_failed, alookup_aset_self]
    exact ⟨rfl, rfl⟩

/-- C10 witness: adding `ABC` at price "$10.00" seeds `last_prices["ABC"]
= 10` and the fetch-failed row price falls back to it; likewise editing
`AAPL` at price "$10.00". -/
theorem C10_last_price_seeding_witness :
    (alookup (pupper (pstrip "ABC"))
        (addSubmit emptyP "ABC" "2" "$10.00" "" "" "" "" "n" "s" none).1.last_prices
      = some (money_to_float (some "$10.00"))
     ∧ rowPrice (addSubmit emptyP "ABC" "2" "$10.00" "" "" "" "" "n" "s" none).1.auto_price
         none (addSubmit emptyP "ABC" "2" "$10.00" "" "" "" "" "n" "s" none).1.last_prices
         (pupper (pstrip "ABC"))
      = some (money_to_float (some "$10.00")))
    ∧ (alookup "AAPL"
        (editSubmit pAAPL "AAPL" "2" "$10.00" "" "" "" "" "s" none).last_prices
      = some (money_to_float (some "$10.00"))
     ∧ rowPrice (editSubmit pAAPL "AAPL" "2" "$10.00" "" "" "" "" "s" none).auto_price
         none (editSubmit pAAPL "AAPL" "2" "$10.00" "" "" "" "" "s" none).last_prices
         "AAPL"
      = some (money_to_float (some "$10.00"))) :=
  ⟨(C10_last_price_seeding emptyP "ABC" "2" "$10.00" "" "" "" "" "n" "s" none).1
      (by with_unfolding_all rfl)
      (by rw [show money_to_float (some "$10.00") = 10 from by with_unfolding_all rfl]
          norm_num),
   (C10_last_price_seeding pAAPL "AAPL" "2" "$10.00" "" "" "" "" "n" "s" none).2
      hAAPL (by with_unfolding_all rfl)
      (by rw [show money_to_float (some "$10.00") = 10 from by with_unfolding_all rfl]
          norm_num)⟩

end Tracker
